import Mathlib

/-!
Shallow embedding of the Firestore-feedback-to-GitHub-issues sync scripts
(`src/unnamed/part_003` as the primary sync driver, with
`src/scripts/sync-firestore-to-github.js` the near-duplicate variant, and
`src/unnamed/part_000` / `part_001` / `part_002` the export/project variants).

The embedding models:
- the chunked screenshot reassembler (`reconstructScreenshot`),
- the local persister's MIME/extension derivation (`saveScreenshotLocally`),
- the issue label construction,
- the sync driver (`main`): pending query, per-record processing with an
  oracle for the external GitHub calls, success/failure write-backs, and the
  retry-reset pass.

External collaborators (Firestore, Octokit) are modelled at their boundary:
the feedback collection is an association list from document id to record,
the screenshot store is a partial map from screenshot id to metadata plus an
(unordered) chunk list, and the outcome of each GitHub call is given by an
oracle indexed by feedback id. Server timestamps are modelled by a `now : Nat`
parameter of each run.
-/

namespace SyncSpec

/-! ## String helpers mirroring the JavaScript string methods used -/

/-- Tests whether `needle` is an initial segment of `hay`
(character-by-character). -/
def matchesAt : List Char → List Char → Bool
  | [], _ => true
  | _ :: _, [] => false
  | c :: cs, d :: ds => c == d && matchesAt cs ds

/-- Tests whether `needle` occurs as a contiguous run inside the second
argument; mirrors JavaScript `String.prototype.includes`. -/
def occursIn (needle : List Char) : List Char → Bool
  | [] => needle.isEmpty
  | d :: ds => matchesAt needle (d :: ds) || occursIn needle ds

/-- Characters of `hay` strictly before the first occurrence of `needle`
(all of `hay` when `needle` does not occur); mirrors `hay.split(needle)[0]`
for a nonempty separator. -/
def takeUntil (needle : List Char) : List Char → List Char
  | [] => []
  | d :: ds => if matchesAt needle (d :: ds) then [] else d :: takeUntil needle ds

/-- Removes the first occurrence of `pat` (nonempty in all uses) from `l`;
mirrors JavaScript `String.prototype.replace(pat, '')`, which replaces only
the first occurrence. -/
def removeFirst (pat : List Char) : List Char → List Char
  | [] => []
  | d :: ds =>
    if matchesAt pat (d :: ds) then List.drop (pat.length - 1) ds
    else d :: removeFirst pat ds

/-- JavaScript `hay.includes(needle)`. -/
def strIncludes (hay needle : String) : Bool := occursIn needle.data hay.data

/-- JavaScript `s.toLowerCase()`, character-wise (the platform strings the
scripts lowercase are ASCII). -/
def jsToLower (s : String) : String := String.mk (s.data.map Char.toLower)

/-! ## Data model -/

/-- One chunk of a chunked screenshot blob (a document of the `chunks`
sub-collection): ordering key `index`, base64 text fragment `data`. -/
structure BlobChunk where
  index : Nat
  data : String
  deriving Repr, DecidableEq

/-- Screenshot metadata document: expected chunk count and optional MIME type. -/
structure BlobMetadata where
  totalChunks : Nat
  mimeType : Option String
  deriving Repr, DecidableEq

/-- The `feedback_screenshots` collection: maps a screenshot id to its
metadata document and the (unordered) list of fetched chunk documents. -/
abbrev ScreenshotDB := String → Option (BlobMetadata × List BlobChunk)

/-- A document of the `feedback` collection. `none` models a null (or unset)
field. The submission `timestamp` is server-assigned and always present. -/
structure FeedbackRecord where
  text : Option String := none
  app_version : Option String := none
  build_number : Option String := none
  platform : Option String := none
  device_info : List (String × String) := []
  screenshot_ref : Option String := none
  user_email : Option String := none
  timestamp : Nat := 0
  githubIssueUrl : Option String := none
  githubIssueNumber : Option Nat := none
  githubRepo : Option String := none
  status : Option String := none
  processedAt : Option Nat := none
  githubIssueError : Option String := none
  retryCount : Nat := 0
  lastAttempt : Option Nat := none
  lastRetry : Option Nat := none
  deriving Repr, DecidableEq

/-- The `feedback` collection: association list from document id to record. -/
abbrev FeedbackDB := List (String × FeedbackRecord)

/-! ## Chunk reassembler (`reconstructScreenshot`) -/

/-- The ordering used by the driver's `orderBy('index')` chunk query. -/
def chunkLe (a b : BlobChunk) : Prop := a.index ≤ b.index

instance : DecidableRel chunkLe := fun a b => Nat.decLe a.index b.index

instance : IsTotal BlobChunk chunkLe := ⟨fun a b => Nat.le_total a.index b.index⟩

instance : IsTrans BlobChunk chunkLe := ⟨fun _ _ _ h h' => Nat.le_trans h h'⟩

/-- Firestore's `orderBy('index')` on the chunk sub-collection: the fetched
documents sorted by ascending `index`. -/
def sortChunks (chunks : List BlobChunk) : List BlobChunk :=
  List.insertionSort chunkLe chunks

/-- The function `reconstructScreenshot` of the sync scripts: fetch the metadata
document (absent → null), fetch the chunks ordered by index, return null
when the snapshot is empty or its length differs from `totalChunks`, else
concatenate the chunk `data` strings into one data URL tagged with the
metadata MIME type (default `image/png`). The JavaScript function wraps its
body in try/catch returning null, so it never throws; accordingly the model
is a total function into `Option`. -/
def reconstructScreenshot (store : ScreenshotDB) (screenshotId : String) :
    Option String :=
  match store screenshotId with
  | none => none
  | some (metadata, chunks) =>
    let docs := sortChunks chunks
    if docs.isEmpty || docs.length != metadata.totalChunks then none
    else
      some ("data:" ++ metadata.mimeType.getD "image/png" ++ ";base64," ++
        String.join (docs.map BlobChunk.data))

/-! ## Local persister (`saveScreenshotLocally`): MIME and extension -/

/-- MIME type derivation in `saveScreenshotLocally`:
`base64Image.split(';base64,')[0].replace('data:', '')` when the data-URL
marker is present, `'image/png'` otherwise. -/
def mimeOfDataUrl (base64Image : String) : String :=
  if strIncludes base64Image ";base64," then
    String.mk (removeFirst "data:".data (takeUntil ";base64,".data base64Image.data))
  else "image/png"

/-- File extension derivation in `saveScreenshotLocally`:
`mimeType.includes('png') ? 'png' : 'jpg'`. -/
def extensionOf (base64Image : String) : String :=
  if strIncludes (mimeOfDataUrl base64Image) "png" then "png" else "jpg"

/-- The file name the persister writes:
`feedback_${feedbackId}.${extension}`. -/
def screenshotFileName (base64Image feedbackId : String) : String :=
  "feedback_" ++ feedbackId ++ "." ++ extensionOf base64Image

/-! ## Issue formatter: labels -/

/-- The `DEFAULT_STATUS` constant of the sync scripts. -/
def DEFAULT_STATUS : String := "status:reportado"

/-- Label construction in `main`: base list `['feedback', 'from-app',
DEFAULT_STATUS]`, then `labels.push(platform.toLowerCase().includes('ios')
? 'ios' : 'android')` guarded by `if (platform)` — JavaScript truthiness,
under which both a null/absent platform and the empty string skip the
push. -/
def issueLabels (platform : Option String) : List String :=
  let labels := ["feedback", "from-app", DEFAULT_STATUS]
  match platform with
  | none => labels
  | some p =>
    if p = "" then labels
    else labels ++ [if strIncludes (jsToLower p) "ios" then "ios" else "android"]

/-! ## Sync driver (`main` of `src/unnamed/part_003`) -/

/-- Result of a successful `octokit.issues.create` call. -/
structure IssueSuccess where
  html_url : String
  number : Nat
  deriving Repr, DecidableEq

/-- Outcome of an `octokit.issues.create` call: the response, or the thrown
error's message. -/
inductive IssueOutcome where
  | success (res : IssueSuccess)
  | failure (msg : String)
  deriving Repr, DecidableEq

/-- Result of a successful `octokit.gists.create` call. -/
structure GistInfo where
  url : String
  raw_url : String
  deriving Repr, DecidableEq

/-- Oracle fixing, per feedback id, the outcome of the external GitHub calls
the driver makes during one run: issue creation (which may throw) and gist
upload (`none` models `uploadScreenshotToGist` swallowing its error and
returning null). -/
structure Oracle where
  issueOutcome : String → IssueOutcome
  gistOutcome : String → Option GistInfo

/-- The field set written by one Firestore `update` call of the driver. -/
inductive UpdateKind where
  | success (url : String) (number : Nat)
  | failure (msg : String)
  | retryReset
  deriving Repr, DecidableEq

/-- Externally visible calls made during a run. -/
inductive Event where
  | createIssue (id : String) (labels : List String) (screenshotNote : String)
  | createGist (id : String)
  | updateDoc (id : String) (kind : UpdateKind)
  deriving Repr, DecidableEq

/-- The feedback id an event concerns. -/
def eventId : Event → String
  | Event.createIssue id _ _ => id
  | Event.createGist id => id
  | Event.updateDoc id _ => id

/-- The success write-back (`part_003` lines 365–371): sets
`githubIssueUrl`, `githubIssueNumber`, `githubRepo`, `status`,
`processedAt`; all other fields untouched. -/
def applySuccessUpdate (res : IssueSuccess) (now : Nat)
    (r : FeedbackRecord) : FeedbackRecord :=
  { r with
    githubIssueUrl := some res.html_url
    githubIssueNumber := some res.number
    githubRepo := some "judinilson/APP"
    status := some "Reportado"
    processedAt := some now }

/-- The failure write-back (`part_003` lines 400–404): sets
`githubIssueError`, `lastAttempt`, and increments `retryCount`; all other
fields untouched. -/
def applyErrorUpdate (msg : String) (now : Nat)
    (r : FeedbackRecord) : FeedbackRecord :=
  { r with
    githubIssueError := some msg
    lastAttempt := some now
    retryCount := r.retryCount + 1 }

/-- The retry reset (`part_003` lines 421–424): sets `githubIssueError` to
null and stamps `lastRetry`; all other fields untouched. -/
def applyRetryReset (now : Nat) (r : FeedbackRecord) : FeedbackRecord :=
  { r with
    githubIssueError := none
    lastRetry := some now }

/-- Filter of the pending query:
`.where('githubIssueUrl', '==', null).where('githubIssueError', '==', null)`. -/
def pendingPred (r : FeedbackRecord) : Bool :=
  decide (r.githubIssueUrl = none ∧ r.githubIssueError = none)

/-- Filter of the retry query: `.where('githubIssueError', '!=', null)
.where('githubIssueUrl', '==', null).where('retryCount', '<', 3)`. -/
def retryPred (r : FeedbackRecord) : Bool :=
  decide (r.githubIssueError ≠ none ∧ r.githubIssueUrl = none ∧
    r.retryCount < 3)

/-- The `orderBy('timestamp', 'desc')` ordering on query snapshots. -/
def tsDesc (a b : String × FeedbackRecord) : Prop :=
  b.2.timestamp ≤ a.2.timestamp

instance : DecidableRel tsDesc := fun a b => Nat.decLe b.2.timestamp a.2.timestamp

/-- Snapshot of the pending query (`part_003` lines 264–269): records with
null `githubIssueUrl` and null `githubIssueError`, ordered by submission
timestamp descending, limited to 10. -/
def pendingQuery (db : FeedbackDB) : List (String × FeedbackRecord) :=
  (List.insertionSort tsDesc (db.filter fun p => pendingPred p.2)).take 10

/-- Snapshot of the retry query (`part_003` lines 409–414): failed records
with `retryCount < 3`, limited to 5. -/
def retryQuery (db : FeedbackDB) : List (String × FeedbackRecord) :=
  (db.filter fun p => retryPred p.2).take 5

/-- Firestore document lookup by id. -/
def findRecord : FeedbackDB → String → Option FeedbackRecord
  | [], _ => none
  | p :: rest, id => if p.1 = id then some p.2 else findRecord rest id

/-- A Firestore `update` call: applies the field update `f` to every
document with the given id (ids are unique in a real collection). -/
def dbUpdate (db : FeedbackDB) (id : String)
    (f : FeedbackRecord → FeedbackRecord) : FeedbackDB :=
  db.map fun p => if p.1 = id then (p.1, f p.2) else p

/-- The screenshot markdown built in the processing loop: image + link when
the gist upload succeeded, the placeholder sentence when it failed. -/
def screenshotMarkdown : Option GistInfo → String
  | some g =>
    "### Screenshot\n![Screenshot](" ++ g.raw_url ++
      ")\n\n*[View full screenshot](" ++ g.url ++ ")*"
  | none => "*Screenshot was available but could not be uploaded*"

/-- Processing of one pending record (the body of the `for` loop of `main`,
`part_003` lines 274–405): reassemble the referenced screenshot if any (a
null reassembly is silently tolerated), upload it to a gist if available (a
failed upload only changes the markdown), create the GitHub issue, and on
success/throw perform the corresponding write-back. Returns the Firestore
field update to apply to the document and the external calls made. -/
def processRecord (store : ScreenshotDB) (oracle : Oracle) (now : Nat)
    (id : String) (snap : FeedbackRecord) :
    (FeedbackRecord → FeedbackRecord) × List Event :=
  let shot : Option String :=
    match snap.screenshot_ref with
    | none => none
    | some ref => reconstructScreenshot store ref
  let gistEvents : List Event :=
    match shot with
    | none => []
    | some _ => [Event.createGist id]
  let note : String :=
    match shot with
    | none => ""
    | some _ => screenshotMarkdown (oracle.gistOutcome id)
  let labels := issueLabels snap.platform
  match oracle.issueOutcome id with
  | IssueOutcome.success res =>
    (applySuccessUpdate res now,
      gistEvents ++ [Event.createIssue id labels note,
        Event.updateDoc id (UpdateKind.success res.html_url res.number)])
  | IssueOutcome.failure msg =>
    (applyErrorUpdate msg now,
      gistEvents ++ [Event.createIssue id labels note,
        Event.updateDoc id (UpdateKind.failure msg)])

/-- Sequential processing of the pending-query snapshot: each record is
processed from its snapshot data and its write-back is applied to the live
collection; a failure never aborts the batch (the loop body catches it and
performs the error write-back), so every snapshot entry is processed. -/
def processBatch (store : ScreenshotDB) (oracle : Oracle) (now : Nat) :
    FeedbackDB → List (String × FeedbackRecord) → FeedbackDB × List Event
  | db, [] => (db, [])
  | db, p :: rest =>
    let step := processRecord store oracle now p.1 p.2
    let next := processBatch store oracle now (dbUpdate db p.1 step.1) rest
    (next.1, step.2 ++ next.2)

/-- Sequential processing of the retry-query snapshot: each selected failed
record gets the retry-reset update. -/
def retryBatch (now : Nat) :
    FeedbackDB → List (String × FeedbackRecord) → FeedbackDB × List Event
  | db, [] => (db, [])
  | db, p :: rest =>
    let next := retryBatch now (dbUpdate db p.1 (applyRetryReset now)) rest
    (next.1, Event.updateDoc p.1 UpdateKind.retryReset :: next.2)

/-- One run of `main`: take the pending snapshot and process it, then take
the retry snapshot on the resulting collection and reset each selected
record. Returns the final collection and the trace of external calls. -/
def runSync (store : ScreenshotDB) (oracle : Oracle) (now : Nat)
    (db : FeedbackDB) : FeedbackDB × List Event :=
  let phase1 := processBatch store oracle now db (pendingQuery db)
  let phase2 := retryBatch now phase1.1 (retryQuery phase1.1)
  (phase2.1, phase1.2 ++ phase2.2)

/-- A sequence of sequential runs of the job, each with its own oracle and
server time. -/
def runSeq (store : ScreenshotDB) (runs : List (Oracle × Nat))
    (db : FeedbackDB) : FeedbackDB :=
  runs.foldl (fun d p => (runSync store p.1 p.2 d).1) db

/-- Document ids are unique in a Firestore collection. -/
def nodupIds (db : FeedbackDB) : Prop := (db.map Prod.fst).Nodup

instance (db : FeedbackDB) : Decidable (nodupIds db) := by
  unfold nodupIds; infer_instance

/-! ## Event counting helpers -/

/-- Recognizes a create-issue call for the given feedback id. -/
def isCreateFor (id : String) : Event → Bool
  | Event.createIssue j _ _ => decide (j = id)
  | _ => false

/-- Recognizes a document update for the given feedback id. -/
def isUpdateFor (id : String) : Event → Bool
  | Event.updateDoc j _ => decide (j = id)
  | _ => false

/-- Recognizes the failure write-back for the given feedback id and message. -/
def isFailUpdateFor (id msg : String) : Event → Bool
  | Event.updateDoc j (UpdateKind.failure m) => decide (j = id ∧ m = msg)
  | _ => false

/-- The list of field-update kinds written to the given document during a
trace, in order. -/
def updatesFor (evs : List Event) (id : String) : List UpdateKind :=
  evs.filterMap fun e =>
    match e with
    | Event.updateDoc j k => if j = id then some k else none
    | _ => none

/-! ## Concrete fixtures used by witnesses and counterexamples -/

/-- A three-chunk screenshot stored out of order, and a zero-chunk one. -/
def exStore : ScreenshotDB := fun s =>
  if s = "shot1" then
    some ({ totalChunks := 3, mimeType := some "image/png" },
      [⟨2, "cc"⟩, ⟨0, "aa"⟩, ⟨1, "bb"⟩])
  else if s = "shot0" then
    some ({ totalChunks := 0, mimeType := none }, [])
  else none

/-- Both GitHub calls succeed. -/
def okOracle : Oracle :=
  { issueOutcome := fun _ =>
      IssueOutcome.success ⟨"https://github.com/judinilson/APP/issues/1", 1⟩
    gistOutcome := fun _ => some ⟨"https://gist/1", "https://gist/1/raw"⟩ }

/-- The gist upload fails (swallowed inside `uploadScreenshotToGist`), while
issue creation succeeds. -/
def gistFailOracle : Oracle :=
  { issueOutcome := fun _ =>
      IssueOutcome.success ⟨"https://github.com/judinilson/APP/issues/2", 2⟩
    gistOutcome := fun _ => none }

/-- Issue creation throws. -/
def failOracle : Oracle :=
  { issueOutcome := fun _ => IssueOutcome.failure "API rate limit exceeded"
    gistOutcome := fun _ => none }

/-- A pending record with a reconstructable screenshot. -/
def pendingRec : FeedbackRecord :=
  { text := some "App crashes on login"
    platform := some "iOS 17"
    timestamp := 10
    screenshot_ref := some "shot1" }

/-- A second pending record, no screenshot. -/
def pendingRec2 : FeedbackRecord := { text := some "Slow startup", timestamp := 5 }

/-- An already-synced record. -/
def syncedRec : FeedbackRecord :=
  { timestamp := 4
    githubIssueUrl := some "https://github.com/judinilson/APP/issues/9"
    githubIssueNumber := some 9
    status := some "Reportado" }

/-- A failed record with one earlier attempt. -/
def failedRec : FeedbackRecord :=
  { timestamp := 6, githubIssueError := some "boom", retryCount := 1 }

/-- An exhausted record at the retry ceiling. -/
def exhaustedRec : FeedbackRecord :=
  { timestamp := 2, githubIssueError := some "dead", retryCount := 3 }

/-- A failed record one attempt short of the ceiling. -/
def eligibleRec : FeedbackRecord :=
  { timestamp := 0, githubIssueError := some "e", retryCount := 2 }

/-- The expected state of `failedRec` after a retry reset stamped at `t`. -/
def failedRecAfterReset (t : Nat) : FeedbackRecord :=
  { timestamp := 6, githubIssueError := none, retryCount := 1,
    lastRetry := some t }

def pendingDb : FeedbackDB := [("f1", pendingRec)]

def pendingDb2 : FeedbackDB := [("f1", pendingRec), ("f2", pendingRec2)]

def mixedDb : FeedbackDB := [("a", syncedRec), ("f1", pendingRec)]

def failedDb : FeedbackDB := [("g1", failedRec)]

def exhaustedDb : FeedbackDB := [("x1", exhaustedRec)]

/-! ## Association-list lemmas -/

theorem mem_of_findRecord {db : FeedbackDB} {id : String} {r : FeedbackRecord}
    (h : findRecord db id = some r) : (id, r) ∈ db := by
  induction db with
  | nil => simp [findRecord] at h
  | cons p rest ih =>
    by_cases hid : p.1 = id
    · rw [findRecord, if_pos hid] at h
      have : p = (id, r) := by
        cases p
        simp at hid h
        exact Prod.ext hid h
      exact this ▸ List.mem_cons_self _ _
    · rw [findRecord, if_neg hid] at h
      exact List.mem_cons_of_mem _ (ih h)

theorem findRecord_eq_of_mem {db : FeedbackDB} {id : String} {r : FeedbackRecord}
    (hnd : nodupIds db) (h : (id, r) ∈ db) : findRecord db id = some r := by
  induction db with
  | nil => simp at h
  | cons p rest ih =>
    have hnd' : nodupIds rest := (List.nodup_cons.mp hnd).2
    rcases List.mem_cons.mp h with h1 | h2
    · rw [← h1, findRecord, if_pos rfl]
    · have hid : p.1 ≠ id := by
        intro he
        exact (List.nodup_cons.mp hnd).1 (he ▸ List.mem_map_of_mem Prod.fst h2)
      rw [findRecord, if_neg hid]
      exact ih hnd' h2

theorem record_mem_unique {db : FeedbackDB} {id : String} {a b : FeedbackRecord}
    (hnd : nodupIds db) (h1 : (id, a) ∈ db) (h2 : (id, b) ∈ db) : a = b := by
  have e1 := findRecord_eq_of_mem hnd h1
  have e2 := findRecord_eq_of_mem hnd h2
  exact Option.some.inj (e1.symm.trans e2)

theorem findRecord_dbUpdate_ne {db : FeedbackDB} {id j : String}
    {f : FeedbackRecord → FeedbackRecord} (h : id ≠ j) :
    findRecord (dbUpdate db j f) id = findRecord db id := by
  induction db with
  | nil => rfl
  | cons p rest ih =>
    rw [dbUpdate, List.map_cons]
    by_cases hpj : p.1 = j
    · have hpid : ¬((p.1, f p.2).1 = id) := fun he => h (he ▸ hpj)
      rw [if_pos hpj, findRecord, if_neg hpid, findRecord,
        if_neg (fun he => h ((he : p.1 = id) ▸ hpj))]
      exact ih
    · by_cases hpid : p.1 = id
      · rw [if_neg hpj, findRecord, if_pos hpid, findRecord, if_pos hpid]
      · rw [if_neg hpj, findRecord, if_neg hpid, findRecord, if_neg hpid]
        exact ih

theorem findRecord_dbUpdate_self {db : FeedbackDB} {id : String}
    {f : FeedbackRecord → FeedbackRecord} :
    findRecord (dbUpdate db id f) id = (findRecord db id).map f := by
  induction db with
  | nil => rfl
  | cons p rest ih =>
    rw [dbUpdate, List.map_cons]
    by_cases hpid : p.1 = id
    · rw [if_pos hpid, findRecord, if_pos hpid, findRecord, if_pos hpid,
        Option.map_some']
    · rw [if_neg hpid, findRecord, if_neg hpid, findRecord, if_neg hpid]
      exact ih

theorem ids_dbUpdate {db : FeedbackDB} {j : String}
    {f : FeedbackRecord → FeedbackRecord} :
    (dbUpdate db j f).map Prod.fst = db.map Prod.fst := by
  induction db with
  | nil => rfl
  | cons p rest ih =>
    rw [dbUpdate, List.map_cons, List.map_cons, List.map_cons]
    by_cases hpj : p.1 = j
    · rw [if_pos hpj]
      exact congrArg (List.cons p.1) ih
    · rw [if_neg hpj]
      exact congrArg (List.cons p.1) ih

/-! ## Batch-processing lemmas -/

theorem processBatch_ids (store : ScreenshotDB) (oracle : Oracle) (now : Nat)
    (db : FeedbackDB) (batch : List (String × FeedbackRecord)) :
    ((processBatch store oracle now db batch).1).map Prod.fst
      = db.map Prod.fst := by
  induction batch generalizing db with
  | nil => rfl
  | cons p rest ih =>
    rw [processBatch]
    exact (ih _).trans ids_dbUpdate

theorem retryBatch_ids (now : Nat) (db : FeedbackDB)
    (batch : List (String × FeedbackRecord)) :
    ((retryBatch now db batch).1).map Prod.fst = db.map Prod.fst := by
  induction batch generalizing db with
  | nil => rfl
  | cons p rest ih =>
    rw [retryBatch]
    exact (ih _).trans ids_dbUpdate

theorem processBatch_find_notmem {store : ScreenshotDB} {oracle : Oracle}
    {now : Nat} {db : FeedbackDB} {batch : List (String × FeedbackRecord)}
    {id : String} (h : id ∉ batch.map Prod.fst) :
    findRecord (processBatch store oracle now db batch).1 id
      = findRecord db id := by
  induction batch generalizing db with
  | nil => rfl
  | cons p rest ih =>
    rw [processBatch]
    have hne : id ≠ p.1 := fun he =>
      h (he ▸ List.mem_cons_self p.1 (rest.map Prod.fst))
    have hrest : id ∉ rest.map Prod.fst := fun hm => h (List.mem_cons_of_mem _ hm)
    exact (ih hrest).trans (findRecord_dbUpdate_ne hne)

theorem retryBatch_find_notmem {now : Nat} {db : FeedbackDB}
    {batch : List (String × FeedbackRecord)} {id : String}
    (h : id ∉ batch.map Prod.fst) :
    findRecord (retryBatch now db batch).1 id = findRecord db id := by
  induction batch generalizing db with
  | nil => rfl
  | cons p rest ih =>
    rw [retryBatch]
    have hne : id ≠ p.1 := fun he =>
      h (he ▸ List.mem_cons_self p.1 (rest.map Prod.fst))
    have hrest : id ∉ rest.map Prod.fst := fun hm => h (List.mem_cons_of_mem _ hm)
    exact (ih hrest).trans (findRecord_dbUpdate_ne hne)

theorem processBatch_find_mem {store : ScreenshotDB} {oracle : Oracle}
    {now : Nat} {db : FeedbackDB} {batch : List (String × FeedbackRecord)}
    {id : String} {snap : FeedbackRecord}
    (hnd : (batch.map Prod.fst).Nodup) (h : (id, snap) ∈ batch) :
    findRecord (processBatch store oracle now db batch).1 id
      = (findRecord db id).map (processRecord store oracle now id snap).1 := by
  induction batch generalizing db with
  | nil => simp at h
  | cons p rest ih =>
    rw [processBatch]
    rcases List.mem_cons.mp h with h1 | h2
    · have hrest : id ∉ rest.map Prod.fst := by
        have := (List.nodup_cons.mp hnd).1
        rw [← h1] at this
        exact this
      rw [processBatch_find_notmem hrest, ← h1, findRecord_dbUpdate_self]
    · have hne : id ≠ p.1 := by
        intro he
        exact (List.nodup_cons.mp hnd).1
          (he ▸ List.mem_map_of_mem Prod.fst h2)
      rw [ih (List.nodup_cons.mp hnd).2 h2, findRecord_dbUpdate_ne hne]

theorem retryBatch_find_mem {now : Nat} {db : FeedbackDB}
    {batch : List (String × FeedbackRecord)} {id : String}
    {snap : FeedbackRecord}
    (hnd : (batch.map Prod.fst).Nodup) (h : (id, snap) ∈ batch) :
    findRecord (retryBatch now db batch).1 id
      = (findRecord db id).map (applyRetryReset now) := by
  induction batch generalizing db with
  | nil => simp at h
  | cons p rest ih =>
    rw [retryBatch]
    rcases List.mem_cons.mp h with h1 | h2
    · have hrest : id ∉ rest.map Prod.fst := by
        have := (List.nodup_cons.mp hnd).1
        rw [← h1] at this
        exact this
      rw [retryBatch_find_notmem hrest, ← h1, findRecord_dbUpdate_self]
    · have hne : id ≠ p.1 := by
        intro he
        exact (List.nodup_cons.mp hnd).1
          (he ▸ List.mem_map_of_mem Prod.fst h2)
      rw [ih (List.nodup_cons.mp hnd).2 h2, findRecord_dbUpdate_ne hne]

/-! ## Query-snapshot lemmas -/

theorem mem_pendingQuery {db : FeedbackDB} {id : String} {r : FeedbackRecord}
    (h : (id, r) ∈ pendingQuery db) : (id, r) ∈ db ∧ pendingPred r = true := by
  have h1 : (id, r) ∈ List.insertionSort tsDesc (db.filter fun p => pendingPred p.2) :=
    List.take_subset _ _ h
  have h2 : (id, r) ∈ db.filter fun p => pendingPred p.2 :=
    (List.perm_insertionSort tsDesc _).subset h1
  have h3 := List.mem_filter.mp h2
  exact ⟨h3.1, h3.2⟩

theorem mem_retryQuery {db : FeedbackDB} {id : String} {r : FeedbackRecord}
    (h : (id, r) ∈ retryQuery db) : (id, r) ∈ db ∧ retryPred r = true := by
  have h2 : (id, r) ∈ db.filter fun p => retryPred p.2 :=
    List.take_subset _ _ h
  have h3 := List.mem_filter.mp h2
  exact ⟨h3.1, h3.2⟩

theorem pendingQuery_ids_nodup {db : FeedbackDB} (hnd : nodupIds db) :
    ((pendingQuery db).map Prod.fst).Nodup := by
  have hfilter : ((db.filter fun p => pendingPred p.2).map Prod.fst).Nodup :=
    ((List.filter_sublist db).map Prod.fst).nodup hnd
  have hsorted :
      ((List.insertionSort tsDesc (db.filter fun p => pendingPred p.2)).map
        Prod.fst).Nodup :=
    (((List.perm_insertionSort tsDesc _).map Prod.fst).nodup_iff).mpr hfilter
  exact ((List.take_sublist _ _).map Prod.fst).nodup hsorted

theorem retryQuery_ids_nodup {db : FeedbackDB} (hnd : nodupIds db) :
    ((retryQuery db).map Prod.fst).Nodup := by
  have hfilter : ((db.filter fun p => retryPred p.2).map Prod.fst).Nodup :=
    ((List.filter_sublist db).map Prod.fst).nodup hnd
  exact ((List.take_sublist _ _).map Prod.fst).nodup hfilter

theorem not_mem_pendingQuery_ids {db : FeedbackDB} {id : String}
    {r : FeedbackRecord} (hnd : nodupIds db) (hf : findRecord db id = some r)
    (hp : pendingPred r = false) : id ∉ (pendingQuery db).map Prod.fst := by
  intro hm
  rcases List.mem_map.mp hm with ⟨q, hq, hq1⟩
  rcases q with ⟨j, r'⟩
  cases hq1
  have h := mem_pendingQuery hq
  have : r' = r := record_mem_unique hnd h.1 (mem_of_findRecord hf)
  rw [this, hp] at h
  exact Bool.false_ne_true h.2

theorem not_mem_retryQuery_ids {db : FeedbackDB} {id : String}
    {r : FeedbackRecord} (hnd : nodupIds db) (hf : findRecord db id = some r)
    (hp : retryPred r = false) : id ∉ (retryQuery db).map Prod.fst := by
  intro hm
  rcases List.mem_map.mp hm with ⟨q, hq, hq1⟩
  rcases q with ⟨j, r'⟩
  cases hq1
  have h := mem_retryQuery hq
  have : r' = r := record_mem_unique hnd h.1 (mem_of_findRecord hf)
  rw [this, hp] at h
  exact Bool.false_ne_true h.2

/-! ## Per-record processing lemmas -/

theorem processRecord_fst_success {store : ScreenshotDB} {oracle : Oracle}
    {now : Nat} {id : String} {snap : FeedbackRecord} {res : IssueSuccess}
    (h : oracle.issueOutcome id = IssueOutcome.success res) :
    (processRecord store oracle now id snap).1 = applySuccessUpdate res now := by
  simp [processRecord, h]

theorem processRecord_fst_failure {store : ScreenshotDB} {oracle : Oracle}
    {now : Nat} {id : String} {snap : FeedbackRecord} {msg : String}
    (h : oracle.issueOutcome id = IssueOutcome.failure msg) :
    (processRecord store oracle now id snap).1 = applyErrorUpdate msg now := by
  simp [processRecord, h]

theorem processRecord_eventId {store : ScreenshotDB} {oracle : Oracle}
    {now : Nat} {j : String} {snap : FeedbackRecord} :
    ∀ e ∈ (processRecord store oracle now j snap).2, eventId e = j := by
  intro e he
  simp only [processRecord] at he
  split at he <;> split at he <;> simp at he <;>
    first
      | (rcases he with rfl | rfl | rfl
         · rfl
         · rfl
         · rfl)
      | (rcases he with rfl | rfl
         · rfl
         · rfl)

theorem processRecord_countCreate {store : ScreenshotDB} {oracle : Oracle}
    {now : Nat} {j : String} {snap : FeedbackRecord} :
    ((processRecord store oracle now j snap).2).countP (isCreateFor j) = 1 := by
  simp only [processRecord]
  split <;> split <;> simp [isCreateFor, List.countP_cons, List.countP_nil]

theorem processRecord_updatesFor_success {store : ScreenshotDB}
    {oracle : Oracle} {now : Nat} {id : String} {snap : FeedbackRecord}
    {res : IssueSuccess}
    (h : oracle.issueOutcome id = IssueOutcome.success res) :
    updatesFor (processRecord store oracle now id snap).2 id
      = [UpdateKind.success res.html_url res.number] := by
  simp only [processRecord, h]
  split <;> simp [updatesFor, List.filterMap_cons]

theorem processRecord_updatesFor_failure {store : ScreenshotDB}
    {oracle : Oracle} {now : Nat} {id : String} {snap : FeedbackRecord}
    {msg : String}
    (h : oracle.issueOutcome id = IssueOutcome.failure msg) :
    updatesFor (processRecord store oracle now id snap).2 id
      = [UpdateKind.failure msg] := by
  simp only [processRecord, h]
  split <;> simp [updatesFor, List.filterMap_cons]

theorem processRecord_countFail {store : ScreenshotDB} {oracle : Oracle}
    {now : Nat} {id : String} {snap : FeedbackRecord} {msg : String}
    (h : oracle.issueOutcome id = IssueOutcome.failure msg) :
    ((processRecord store oracle now id snap).2).countP
      (isFailUpdateFor id msg) = 1 := by
  simp only [processRecord, h]
  split <;> simp [isFailUpdateFor, List.countP_cons, List.countP_nil]

/-! ## Trace lemmas for whole batches -/

theorem countP_eq_zero_of_eventId {evs : List Event} {id : String}
    {p : Event → Bool} (hp : ∀ e, p e = true → eventId e = id)
    (hne : ∀ e ∈ evs, eventId e ≠ id) : evs.countP p = 0 := by
  rw [List.countP_eq_zero]
  intro e he hpe
  exact hne e he (hp e hpe)

theorem updatesFor_append {a b : List Event} {id : String} :
    updatesFor (a ++ b) id = updatesFor a id ++ updatesFor b id := by
  simp [updatesFor, List.filterMap_append]

theorem updatesFor_eq_nil {evs : List Event} {id : String}
    (hne : ∀ e ∈ evs, eventId e ≠ id) : updatesFor evs id = [] := by
  induction evs with
  | nil => rfl
  | cons e rest ih =>
    have h1 : eventId e ≠ id := hne e (List.mem_cons_self _ _)
    have h2 : updatesFor rest id = [] :=
      ih fun x hx => hne x (List.mem_cons_of_mem _ hx)
    cases e with
    | createIssue j ls n => simpa [updatesFor, List.filterMap_cons] using h2
    | createGist j => simpa [updatesFor, List.filterMap_cons] using h2
    | updateDoc j k =>
      have : ¬(j = id) := h1
      simp only [updatesFor, List.filterMap_cons, if_neg this]
      exact h2

theorem processBatch_events_eventId {store : ScreenshotDB} {oracle : Oracle}
    {now : Nat} {db : FeedbackDB} {batch : List (String × FeedbackRecord)} :
    ∀ e ∈ (processBatch store oracle now db batch).2,
      eventId e ∈ batch.map Prod.fst := by
  induction batch generalizing db with
  | nil => intro e he; simp [processBatch] at he
  | cons q rest ih =>
    intro e he
    rw [processBatch] at he
    rcases List.mem_append.mp he with h1 | h2
    · rw [List.map_cons, processRecord_eventId e h1]
      exact List.mem_cons_self _ _
    · rw [List.map_cons]
      exact List.mem_cons_of_mem _ (ih e h2)

theorem retryBatch_events {now : Nat} {db : FeedbackDB}
    {batch : List (String × FeedbackRecord)} :
    (retryBatch now db batch).2
      = batch.map fun p => Event.updateDoc p.1 UpdateKind.retryReset := by
  induction batch generalizing db with
  | nil => rfl
  | cons q rest ih =>
    rw [retryBatch, List.map_cons]
    exact congrArg _ (ih)

theorem retryBatch_events_eventId {now : Nat} {db : FeedbackDB}
    {batch : List (String × FeedbackRecord)} :
    ∀ e ∈ (retryBatch now db batch).2, eventId e ∈ batch.map Prod.fst := by
  intro e he
  rw [retryBatch_events] at he
  rcases List.mem_map.mp he with ⟨q, hq, rfl⟩
  exact List.mem_map_of_mem Prod.fst hq

theorem processBatch_countP {store : ScreenshotDB} {oracle : Oracle}
    {now : Nat} {db : FeedbackDB} {batch : List (String × FeedbackRecord)}
    {id : String} {snap : FeedbackRecord} {p : Event → Bool}
    (hp : ∀ e, p e = true → eventId e = id)
    (hnd : (batch.map Prod.fst).Nodup) (hmem : (id, snap) ∈ batch) :
    ((processBatch store oracle now db batch).2).countP p
      = ((processRecord store oracle now id snap).2).countP p := by
  induction batch generalizing db with
  | nil => simp at hmem
  | cons q rest ih =>
    rw [processBatch, List.countP_append]
    rcases List.mem_cons.mp hmem with h1 | h2
    · have hrest : id ∉ rest.map Prod.fst := by
        have := (List.nodup_cons.mp hnd).1
        rw [← h1] at this
        exact this
      have hzero : ((processBatch store oracle now
          (dbUpdate db q.1 (processRecord store oracle now q.1 q.2).1)
          rest).2).countP p = 0 :=
        countP_eq_zero_of_eventId hp fun e he hid =>
          hrest (hid ▸ processBatch_events_eventId e he)
      rw [hzero, ← h1, Nat.add_zero]
    · have hne : q.1 ≠ id := by
        intro he
        exact (List.nodup_cons.mp hnd).1
          (he ▸ List.mem_map_of_mem Prod.fst h2)
      have hzero : ((processRecord store oracle now q.1 q.2).2).countP p = 0 :=
        countP_eq_zero_of_eventId hp fun e he hid =>
          hne ((processRecord_eventId e he).symm.trans hid)
      rw [hzero, ih (List.nodup_cons.mp hnd).2 h2, Nat.zero_add]

theorem processBatch_updatesFor {store : ScreenshotDB} {oracle : Oracle}
    {now : Nat} {db : FeedbackDB} {batch : List (String × FeedbackRecord)}
    {id : String} {snap : FeedbackRecord}
    (hnd : (batch.map Prod.fst).Nodup) (hmem : (id, snap) ∈ batch) :
    updatesFor (processBatch store oracle now db batch).2 id
      = updatesFor (processRecord store oracle now id snap).2 id := by
  induction batch generalizing db with
  | nil => simp at hmem
  | cons q rest ih =>
    rw [processBatch]
    show updatesFor ((processRecord store oracle now q.1 q.2).2 ++ _) id = _
    rw [updatesFor_append]
    rcases List.mem_cons.mp hmem with h1 | h2
    · have hrest : id ∉ rest.map Prod.fst := by
        have := (List.nodup_cons.mp hnd).1
        rw [← h1] at this
        exact this
      have hnil : updatesFor (processBatch store oracle now
          (dbUpdate db q.1 (processRecord store oracle now q.1 q.2).1)
          rest).2 id = [] :=
        updatesFor_eq_nil fun e he hid =>
          hrest (hid ▸ processBatch_events_eventId e he)
      rw [hnil, ← h1, List.append_nil]
    · have hne : q.1 ≠ id := by
        intro he
        exact (List.nodup_cons.mp hnd).1
          (he ▸ List.mem_map_of_mem Prod.fst h2)
      have hnil : updatesFor (processRecord store oracle now q.1 q.2).2 id = [] :=
        updatesFor_eq_nil fun e he hid =>
          hne ((processRecord_eventId e he).symm.trans hid)
      rw [hnil, ih (List.nodup_cons.mp hnd).2 h2, List.nil_append]

/-! ## Whole-run lemmas -/

theorem runSync_ids (store : ScreenshotDB) (oracle : Oracle) (now : Nat)
    (db : FeedbackDB) :
    ((runSync store oracle now db).1).map Prod.fst = db.map Prod.fst := by
  unfold runSync
  exact (retryBatch_ids _ _ _).trans (processBatch_ids _ _ _ _ _)

theorem nodupIds_runSync {store : ScreenshotDB} {oracle : Oracle} {now : Nat}
    {db : FeedbackDB} (hnd : nodupIds db) :
    nodupIds (runSync store oracle now db).1 := by
  unfold nodupIds
  rw [runSync_ids]
  exact hnd

theorem runSync_find_untouched {store : ScreenshotDB} {oracle : Oracle}
    {now : Nat} {db : FeedbackDB} {id : String} {r : FeedbackRecord}
    (hnd : nodupIds db) (hf : findRecord db id = some r)
    (hpend : pendingPred r = false) (hretry : retryPred r = false) :
    findRecord (runSync store oracle now db).1 id = some r := by
  unfold runSync
  have h1 : findRecord (processBatch store oracle now db (pendingQuery db)).1 id
      = some r :=
    (processBatch_find_notmem (not_mem_pendingQuery_ids hnd hf hpend)).trans hf
  have hnd1 : nodupIds (processBatch store oracle now db (pendingQuery db)).1 := by
    unfold nodupIds
    rw [processBatch_ids]
    exact hnd
  exact (retryBatch_find_notmem (not_mem_retryQuery_ids hnd1 h1 hretry)).trans h1

theorem runSync_success_find {store : ScreenshotDB} {oracle : Oracle}
    {now : Nat} {db : FeedbackDB} {id : String} {r : FeedbackRecord}
    {res : IssueSuccess} (hnd : nodupIds db)
    (hmem : (id, r) ∈ pendingQuery db)
    (ho : oracle.issueOutcome id = IssueOutcome.success res) :
    findRecord (runSync store oracle now db).1 id
      = some (applySuccessUpdate res now r) := by
  unfold runSync
  have hdb : findRecord db id = some r :=
    findRecord_eq_of_mem hnd (mem_pendingQuery hmem).1
  have h1 : findRecord (processBatch store oracle now db (pendingQuery db)).1 id
      = some (applySuccessUpdate res now r) := by
    rw [processBatch_find_mem (pendingQuery_ids_nodup hnd) hmem, hdb,
      processRecord_fst_success ho, Option.map_some']
  have hnd1 : nodupIds (processBatch store oracle now db (pendingQuery db)).1 := by
    unfold nodupIds
    rw [processBatch_ids]
    exact hnd
  have hretry : retryPred (applySuccessUpdate res now r) = false := by
    simp [retryPred, applySuccessUpdate]
  exact (retryBatch_find_notmem (not_mem_retryQuery_ids hnd1 h1 hretry)).trans h1

theorem runSync_failure_find {store : ScreenshotDB} {oracle : Oracle}
    {now : Nat} {db : FeedbackDB} {id : String} {r : FeedbackRecord}
    {msg : String} (hnd : nodupIds db)
    (hmem : (id, r) ∈ pendingQuery db)
    (ho : oracle.issueOutcome id = IssueOutcome.failure msg) :
    findRecord (runSync store oracle now db).1 id
        = some (applyErrorUpdate msg now r) ∨
      findRecord (runSync store oracle now db).1 id
        = some (applyRetryReset now (applyErrorUpdate msg now r)) := by
  unfold runSync
  have hdb : findRecord db id = some r :=
    findRecord_eq_of_mem hnd (mem_pendingQuery hmem).1
  have h1 : findRecord (processBatch store oracle now db (pendingQuery db)).1 id
      = some (applyErrorUpdate msg now r) := by
    rw [processBatch_find_mem (pendingQuery_ids_nodup hnd) hmem, hdb,
      processRecord_fst_failure ho, Option.map_some']
  have hnd1 : nodupIds (processBatch store oracle now db (pendingQuery db)).1 := by
    unfold nodupIds
    rw [processBatch_ids]
    exact hnd
  by_cases hsel : id ∈ (retryQuery
      (processBatch store oracle now db (pendingQuery db)).1).map Prod.fst
  · rcases List.mem_map.mp hsel with ⟨q, hq, hq1⟩
    rcases q with ⟨j, snap⟩
    cases hq1
    right
    rw [retryBatch_find_mem (retryQuery_ids_nodup hnd1) hq, h1, Option.map_some']
  · left
    exact (retryBatch_find_notmem hsel).trans h1

theorem retryBatch_countP_zero {now : Nat} {db : FeedbackDB}
    {batch : List (String × FeedbackRecord)} {p : Event → Bool}
    (hkind : ∀ j, p (Event.updateDoc j UpdateKind.retryReset) = false) :
    ((retryBatch now db batch).2).countP p = 0 := by
  rw [List.countP_eq_zero, retryBatch_events]
  intro e he
  rcases List.mem_map.mp he with ⟨q, _, rfl⟩
  simp [hkind]

theorem runSync_countCreate {store : ScreenshotDB} {oracle : Oracle}
    {now : Nat} {db : FeedbackDB} {id : String} {snap : FeedbackRecord}
    (hnd : nodupIds db) (hmem : (id, snap) ∈ pendingQuery db) :
    ((runSync store oracle now db).2).countP (isCreateFor id) = 1 := by
  unfold runSync
  rw [List.countP_append]
  have hp : ∀ e, isCreateFor id e = true → eventId e = id := by
    intro e he
    cases e with
    | createIssue j ls n => exact of_decide_eq_true he
    | createGist j => simp [isCreateFor] at he
    | updateDoc j k => simp [isCreateFor] at he
  rw [processBatch_countP hp (pendingQuery_ids_nodup hnd) hmem,
    processRecord_countCreate,
    retryBatch_countP_zero fun j => by simp [isCreateFor]]

theorem runSync_countFail {store : ScreenshotDB} {oracle : Oracle}
    {now : Nat} {db : FeedbackDB} {id : String} {snap : FeedbackRecord}
    {msg : String} (hnd : nodupIds db) (hmem : (id, snap) ∈ pendingQuery db)
    (ho : oracle.issueOutcome id = IssueOutcome.failure msg) :
    ((runSync store oracle now db).2).countP (isFailUpdateFor id msg) = 1 := by
  unfold runSync
  rw [List.countP_append]
  have hp : ∀ e, isFailUpdateFor id msg e = true → eventId e = id := by
    intro e he
    cases e with
    | createIssue j ls n => simp [isFailUpdateFor] at he
    | createGist j => simp [isFailUpdateFor] at he
    | updateDoc j k =>
      cases k with
      | success u n => simp [isFailUpdateFor] at he
      | failure m => exact (of_decide_eq_true he).1
      | retryReset => simp [isFailUpdateFor] at he
  rw [processBatch_countP hp (pendingQuery_ids_nodup hnd) hmem,
    processRecord_countFail ho,
    retryBatch_countP_zero fun j => by simp [isFailUpdateFor]]

theorem runSync_updatesFor_success {store : ScreenshotDB} {oracle : Oracle}
    {now : Nat} {db : FeedbackDB} {id : String} {r : FeedbackRecord}
    {res : IssueSuccess} (hnd : nodupIds db)
    (hmem : (id, r) ∈ pendingQuery db)
    (ho : oracle.issueOutcome id = IssueOutcome.success res) :
    updatesFor (runSync store oracle now db).2 id
      = [UpdateKind.success res.html_url res.number] := by
  unfold runSync
  rw [updatesFor_append,
    processBatch_updatesFor (pendingQuery_ids_nodup hnd) hmem,
    processRecord_updatesFor_success ho]
  have hdb : findRecord db id = some r :=
    findRecord_eq_of_mem hnd (mem_pendingQuery hmem).1
  have h1 : findRecord (processBatch store oracle now db (pendingQuery db)).1 id
      = some (applySuccessUpdate res now r) := by
    rw [processBatch_find_mem (pendingQuery_ids_nodup hnd) hmem, hdb,
      processRecord_fst_success ho, Option.map_some']
  have hnd1 : nodupIds (processBatch store oracle now db (pendingQuery db)).1 := by
    unfold nodupIds
    rw [processBatch_ids]
    exact hnd
  have hretry : retryPred (applySuccessUpdate res now r) = false := by
    simp [retryPred, applySuccessUpdate]
  have hnil : updatesFor (retryBatch now
      (processBatch store oracle now db (pendingQuery db)).1
      (retryQuery (processBatch store oracle now db (pendingQuery db)).1)).2 id
      = [] :=
    updatesFor_eq_nil fun e he hid =>
      not_mem_retryQuery_ids hnd1 h1 hretry (hid ▸ retryBatch_events_eventId e he)
  rw [hnil, List.append_nil]

theorem runSeq_untouched {store : ScreenshotDB}
    {runs : List (Oracle × Nat)} {db : FeedbackDB} {id : String}
    {r : FeedbackRecord} (hnd : nodupIds db) (hf : findRecord db id = some r)
    (hpend : pendingPred r = false) (hretry : retryPred r = false) :
    findRecord (runSeq store runs db) id = some r := by
  induction runs generalizing db with
  | nil => exact hf
  | cons o rest ih =>
    show findRecord (runSeq store rest (runSync store o.1 o.2 db).1) id = some r
    exact ih (nodupIds_runSync hnd) (runSync_find_untouched hnd hf hpend hretry)

/-! ## Claim theorems -/

/-- Claim C10: the retry reset writes exactly two fields — `githubIssueError`
(set to null) and `lastRetry` (server timestamp) — and leaves every other
field of the record, including `retryCount`, `githubIssueUrl`,
`githubIssueNumber`, and all content fields, unchanged. -/
theorem retry_reset_frame (now : Nat) (r : FeedbackRecord) :
    (applyRetryReset now r).githubIssueError = none ∧
    (applyRetryReset now r).lastRetry = some now ∧
    (applyRetryReset now r).retryCount = r.retryCount ∧
    (applyRetryReset now r).githubIssueUrl = r.githubIssueUrl ∧
    (applyRetryReset now r).githubIssueNumber = r.githubIssueNumber ∧
    (applyRetryReset now r).githubRepo = r.githubRepo ∧
    (applyRetryReset now r).status = r.status ∧
    (applyRetryReset now r).processedAt = r.processedAt ∧
    (applyRetryReset now r).lastAttempt = r.lastAttempt ∧
    (applyRetryReset now r).text = r.text ∧
    (applyRetryReset now r).app_version = r.app_version ∧
    (applyRetryReset now r).build_number = r.build_number ∧
    (applyRetryReset now r).platform = r.platform ∧
    (applyRetryReset now r).device_info = r.device_info ∧
    (applyRetryReset now r).screenshot_ref = r.screenshot_ref ∧
    (applyRetryReset now r).user_email = r.user_email ∧
    (applyRetryReset now r).timestamp = r.timestamp :=
  ⟨rfl, rfl, rfl, rfl, rfl, rfl, rfl, rfl, rfl, rfl, rfl, rfl, rfl, rfl, rfl,
    rfl, rfl⟩

/-- Claim C9 counterexample: with the platform field present but equal to
the empty string — falsy in JavaScript, so `if (platform)` skips the push —
the code adds no platform label at all, contradicting the claim that a
present platform field always yields exactly one platform-derived label. -/
theorem labels_empty_platform_counterexample :
    issueLabels (some "") = ["feedback", "from-app", DEFAULT_STATUS] ∧
    (issueLabels (some "")).count "ios" = 0 ∧
    (issueLabels (some "")).count "android" = 0 := by
  refine ⟨by decide, by decide, by decide⟩

/-- Claim C9 amended: the label set is the fixed base (`feedback`,
`from-app`) plus the default status label, plus exactly one
platform-derived label when the platform field is present AND non-empty
(JavaScript-truthy): `ios` when the platform text contains `ios`
case-insensitively, otherwise `android`. When the platform is absent — or
present but the empty string — neither platform label is added. -/
theorem labels_platform_truthy :
    issueLabels none = ["feedback", "from-app", DEFAULT_STATUS] ∧
    issueLabels (some "") = ["feedback", "from-app", DEFAULT_STATUS] ∧
    (issueLabels (some "")).count "ios" = 0 ∧
    (issueLabels (some "")).count "android" = 0 ∧
    (issueLabels none).count "ios" = 0 ∧
    (issueLabels none).count "android" = 0 ∧
    ∀ p : String, p ≠ "" →
      issueLabels (some p) = ["feedback", "from-app", DEFAULT_STATUS] ++
        [if strIncludes (jsToLower p) "ios" then "ios" else "android"] ∧
      (issueLabels (some p)).count "ios" +
        (issueLabels (some p)).count "android" = 1 ∧
      (strIncludes (jsToLower p) "ios" = true →
        (issueLabels (some p)).count "ios" = 1) ∧
      (strIncludes (jsToLower p) "ios" = false →
        (issueLabels (some p)).count "android" = 1) := by
  refine ⟨rfl, rfl, by decide, by decide, by decide, by decide, fun p hp => ?_⟩
  by_cases h : strIncludes (jsToLower p) "ios"
  · refine ⟨by simp [issueLabels, hp, h], ?_, fun _ => ?_, fun hc => ?_⟩
    · simp [issueLabels, hp, h, DEFAULT_STATUS, List.count_cons]
    · simp [issueLabels, hp, h, DEFAULT_STATUS, List.count_cons]
    · rw [h] at hc
      exact absurd hc (by simp)
  · have h' : strIncludes (jsToLower p) "ios" = false := by
      simpa using h
    refine ⟨by simp [issueLabels, hp, h'], ?_, fun hc => ?_, fun _ => ?_⟩
    · simp [issueLabels, hp, h', DEFAULT_STATUS, List.count_cons]
    · rw [h'] at hc
      exact absurd hc (by simp)
    · simp [issueLabels, hp, h', DEFAULT_STATUS, List.count_cons]

/-- Claim C9 amended witness: `iOS 17` yields the `ios` label, `Android 14`
yields `android`, and an absent platform yields neither. -/
theorem labels_platform_truthy_witness :
    (issueLabels (some "iOS 17")).count "ios" = 1 ∧
    (issueLabels (some "Android 14")).count "android" = 1 ∧
    (issueLabels none).count "ios" = 0 :=
  ⟨(labels_platform_truthy.2.2.2.2.2.2 "iOS 17" (by decide)).2.2.1 (by decide),
    (labels_platform_truthy.2.2.2.2.2.2 "Android 14" (by decide)).2.2.2
      (by decide),
    labels_platform_truthy.2.2.2.2.1⟩

/-- Claim C8 counterexample: the claim says a MIME type that contains neither
`png` nor `jpg`/`jpeg` defaults to extension `.png`, but the code
(`extension = mimeType.includes('png') ? 'png' : 'jpg'`) yields `.jpg` for
`image/gif`. -/
theorem extension_gif_counterexample :
    mimeOfDataUrl "data:image/gif;base64,AAAA" = "image/gif" ∧
    strIncludes "image/gif" "png" = false ∧
    strIncludes "image/gif" "jpg" = false ∧
    strIncludes "image/gif" "jpeg" = false ∧
    extensionOf "data:image/gif;base64,AAAA" = "jpg" ∧
    screenshotFileName "data:image/gif;base64,AAAA" "f1" = "feedback_f1.jpg" := by
  refine ⟨by decide, by decide, by decide, by decide, by decide, by decide⟩

/-- Claim C8 amended: the extension is `.png` exactly when the derived MIME type
contains `png`, and `.jpg` in every other case (including `jpg`/`jpeg` and
every other MIME type such as `image/gif`). -/
theorem extension_from_mime :
    (∀ img, extensionOf img = "png" ∨ extensionOf img = "jpg") ∧
    (∀ img, strIncludes (mimeOfDataUrl img) "png" = true ↔
      extensionOf img = "png") ∧
    extensionOf "data:image/png;base64,AA" = "png" ∧
    extensionOf "data:image/jpeg;base64,AA" = "jpg" ∧
    extensionOf "data:image/jpg;base64,AA" = "jpg" ∧
    extensionOf "data:image/gif;base64,AA" = "jpg" := by
  refine ⟨fun img => ?_, fun img => ?_, by decide, by decide, by decide,
    by decide⟩
  · unfold extensionOf
    by_cases h : strIncludes (mimeOfDataUrl img) "png"
    · exact Or.inl (if_pos h)
    · exact Or.inr (if_neg h)
  · unfold extensionOf
    constructor
    · intro h
      rw [if_pos h]
    · intro h
      by_cases hc : strIncludes (mimeOfDataUrl img) "png"
      · exact hc
      · rw [if_neg hc] at h
        exact absurd h (by decide)

/-- Claim C8 amended witness: concrete instances of both directions of the
characterization. -/
theorem extension_from_mime_witness :
    extensionOf "data:image/webp;base64,AA" = "jpg" ∧
    strIncludes (mimeOfDataUrl "data:image/png;base64,AA") "png" = true := by
  constructor
  · rcases extension_from_mime.1 "data:image/webp;base64,AA" with h | h
    · exact absurd ((extension_from_mime.2.1 "data:image/webp;base64,AA").mpr h)
        (by decide)
    · exact h
  · exact (extension_from_mime.2.1 "data:image/png;base64,AA").mpr (by decide)

/-- Claim C4 counterexample: with metadata present, `totalChunks = 0` and an
empty chunk set, the claim says a blob is returned, but
`reconstructScreenshot` returns null (`chunksSnapshot.empty` short-circuits
before the count comparison). -/
theorem reconstruct_zero_chunks_counterexample :
    exStore "shot0" = some ({ totalChunks := 0, mimeType := none }, []) ∧
    reconstructScreenshot exStore "shot0" = none := by
  refine ⟨by decide, by decide⟩

/-- Claim C4 amended: `reconstructScreenshot` returns a blob exactly when the
metadata document exists, the fetched chunk set is nonempty, and the
fetched count equals `metadata.totalChunks`; it returns `Unavailable`
(null) in every other case — including `totalChunks = 0` with an empty
chunk set — and, being a total function into `Option`, never throws to its
caller. -/
theorem reconstructScreenshot_none {store : ScreenshotDB} {sid : String}
    (hst : store sid = none) : reconstructScreenshot store sid = none := by
  unfold reconstructScreenshot
  rw [hst]

theorem reconstructScreenshot_eq {store : ScreenshotDB} {sid : String}
    {m : BlobMetadata} {chunks : List BlobChunk}
    (hst : store sid = some (m, chunks)) :
    reconstructScreenshot store sid =
      if (sortChunks chunks).isEmpty
          || ((sortChunks chunks).length != m.totalChunks) then none
      else
        some ("data:" ++ m.mimeType.getD "image/png" ++ ";base64," ++
          String.join ((sortChunks chunks).map BlobChunk.data)) := by
  unfold reconstructScreenshot
  rw [hst]

theorem reconstruct_available_iff (store : ScreenshotDB) (sid : String) :
    (reconstructScreenshot store sid).isSome = true ↔
      ∃ m chunks, store sid = some (m, chunks) ∧ chunks ≠ [] ∧
        chunks.length = m.totalChunks := by
  cases hst : store sid with
  | none =>
    rw [reconstructScreenshot_none hst]
    simp
  | some v =>
    rcases v with ⟨m, chunks⟩
    have hlen : (sortChunks chunks).length = chunks.length :=
      (List.perm_insertionSort chunkLe chunks).length_eq
    have hempty : (sortChunks chunks).isEmpty = true ↔ chunks = [] := by
      rw [List.isEmpty_iff_length_eq_zero, hlen, List.length_eq_zero]
    rw [reconstructScreenshot_eq hst]
    constructor
    · intro h
      by_cases hc : ((sortChunks chunks).isEmpty
          || ((sortChunks chunks).length != m.totalChunks)) = true
      · rw [if_pos hc] at h
        exact absurd h (by decide)
      · rw [if_neg hc] at h
        rw [Bool.or_eq_true_iff, not_or] at hc
        refine ⟨m, chunks, rfl, fun hnil => hc.1 (hempty.mpr hnil), ?_⟩
        have hcount : (sortChunks chunks).length = m.totalChunks := by
          by_contra hne
          exact hc.2 (bne_iff_ne.mpr hne)
        exact hlen ▸ hcount
    · rintro ⟨m', chunks', heq, hnil, hcount⟩
      have hpair : (m, chunks) = (m', chunks') := Option.some.inj heq
      have hm : m = m' := congrArg Prod.fst hpair
      have hch : chunks = chunks' := congrArg Prod.snd hpair
      subst hm
      subst hch
      have ha : (sortChunks chunks).isEmpty = false := by
        cases hb : (sortChunks chunks).isEmpty
        · rfl
        · exact absurd (hempty.mp hb) hnil
      have hb : ((sortChunks chunks).length != m.totalChunks) = false :=
        bne_eq_false_iff_eq.mpr (hlen.trans hcount)
      rw [ha, hb]
      rfl

/-- Claim C4 amended witness: a complete three-chunk blob is available, and a
missing metadata document is unavailable. -/
theorem reconstruct_available_iff_witness :
    (reconstructScreenshot exStore "shot1").isSome = true ∧
    reconstructScreenshot exStore "missing" = none :=
  ⟨(reconstruct_available_iff exStore "shot1").mpr
      ⟨{ totalChunks := 3, mimeType := some "image/png" },
        [⟨2, "cc"⟩, ⟨0, "aa"⟩, ⟨1, "bb"⟩], by decide, by decide, by decide⟩,
    by decide⟩

/-- Claim C1: no operation of the sync driver writes to `githubIssueUrl` of a
record whose `githubIssueUrl` is already non-null — the record is left
entirely untouched by a run — and across any sequence of sequential runs
the URL, once set, is never overwritten, so a record transitions from null
to a non-null URL at most once. -/
theorem issueUrl_write_once (store : ScreenshotDB) (db : FeedbackDB)
    (id : String) (r : FeedbackRecord) (u : String)
    (hnd : nodupIds db) (hf : findRecord db id = some r)
    (hu : r.githubIssueUrl = some u) :
    (∀ oracle now, findRecord (runSync store oracle now db).1 id = some r) ∧
    ∀ runs, ∃ r', findRecord (runSeq store runs db) id = some r' ∧
      r'.githubIssueUrl = some u := by
  have hpend : pendingPred r = false := by
    rw [pendingPred, decide_eq_false_iff_not]
    rintro ⟨h1, -⟩
    rw [hu] at h1
    exact Option.noConfusion h1
  have hretry : retryPred r = false := by
    rw [retryPred, decide_eq_false_iff_not]
    rintro ⟨-, h2, -⟩
    rw [hu] at h2
    exact Option.noConfusion h2
  exact ⟨fun oracle now => runSync_find_untouched hnd hf hpend hretry,
    fun runs => ⟨r, runSeq_untouched hnd hf hpend hretry, hu⟩⟩

/-- Claim C1 witness: a synced record in a mixed collection keeps its URL across
two runs, while a pending sibling record is present. -/
theorem issueUrl_write_once_witness :
    ∃ r', findRecord
        (runSeq exStore [(okOracle, 5), (failOracle, 6)] mixedDb) "a"
        = some r' ∧
      r'.githubIssueUrl = some "https://github.com/judinilson/APP/issues/9" :=
  (issueUrl_write_once exStore mixedDb "a" syncedRec
    "https://github.com/judinilson/APP/issues/9"
    (by decide) (by decide) (by decide)).2 [(okOracle, 5), (failOracle, 6)]

/-- Claim C2: a pending record whose processing succeeds gets exactly one
create-issue call and exactly one document update, which sets
`githubIssueUrl`, `githubIssueNumber`, `status`, and `processedAt` (server
timestamp); afterwards `githubIssueError` is still null. -/
theorem pending_success_sync (store : ScreenshotDB) (oracle : Oracle)
    (now : Nat) (db : FeedbackDB) (id : String) (r : FeedbackRecord)
    (res : IssueSuccess) (hnd : nodupIds db)
    (hmem : (id, r) ∈ pendingQuery db)
    (ho : oracle.issueOutcome id = IssueOutcome.success res) :
    ((runSync store oracle now db).2).countP (isCreateFor id) = 1 ∧
    updatesFor (runSync store oracle now db).2 id
      = [UpdateKind.success res.html_url res.number] ∧
    ∃ r', findRecord (runSync store oracle now db).1 id = some r' ∧
      r'.githubIssueUrl = some res.html_url ∧
      r'.githubIssueNumber = some res.number ∧
      r'.status = some "Reportado" ∧
      r'.processedAt = some now ∧
      r'.githubIssueError = none := by
  have herr : r.githubIssueError = none :=
    (of_decide_eq_true (mem_pendingQuery hmem).2).2
  exact ⟨runSync_countCreate hnd hmem,
    runSync_updatesFor_success hnd hmem ho,
    applySuccessUpdate res now r, runSync_success_find hnd hmem ho,
    rfl, rfl, rfl, rfl, herr⟩

/-- Claim C2 witness: a single pending record with a three-chunk screenshot,
successful run. -/
theorem pending_success_sync_witness :
    ((runSync exStore okOracle 5 pendingDb).2).countP (isCreateFor "f1") = 1 ∧
    updatesFor (runSync exStore okOracle 5 pendingDb).2 "f1"
      = [UpdateKind.success "https://github.com/judinilson/APP/issues/1" 1] :=
  have h := pending_success_sync exStore okOracle 5 pendingDb "f1" pendingRec
    ⟨"https://github.com/judinilson/APP/issues/1", 1⟩
    (by decide) (by decide) rfl
  ⟨h.1, h.2.1⟩

/-- Claim C3 counterexample: a record whose gist upload fails (while issue
creation succeeds) does NOT get `githubIssueError` written — the failure is
swallowed inside `uploadScreenshotToGist`, the issue is created with a
placeholder markdown, and the record ends synced with a success update and
no residual error, contradicting the claim that a gist-upload failure
yields an update setting `githubIssueError` while `githubIssueUrl` stays
null. -/
theorem gist_failure_not_recorded :
    gistFailOracle.gistOutcome "f1" = none ∧
    Event.createGist "f1" ∈ (runSync exStore gistFailOracle 7 pendingDb).2 ∧
    Event.createIssue "f1" (issueLabels (some "iOS 17"))
        "*Screenshot was available but could not be uploaded*"
      ∈ (runSync exStore gistFailOracle 7 pendingDb).2 ∧
    updatesFor (runSync exStore gistFailOracle 7 pendingDb).2 "f1"
      = [UpdateKind.success "https://github.com/judinilson/APP/issues/2" 2] ∧
    (findRecord (runSync exStore gistFailOracle 7 pendingDb).1 "f1").map
      FeedbackRecord.githubIssueError = some none ∧
    (findRecord (runSync exStore gistFailOracle 7 pendingDb).1 "f1").map
      FeedbackRecord.githubIssueUrl
      = some (some "https://github.com/judinilson/APP/issues/2") :=
  ⟨rfl, by decide, by decide, by decide, by decide, by decide⟩

/-- Claim C3 amended: a pending record whose ISSUE CREATION fails gets exactly
one failure write-back setting `githubIssueError` to the failure message,
`lastAttempt` to the server timestamp, and `retryCount` incremented by 1,
while `githubIssueUrl` stays null through the end of the run; the failure
does not abort the batch (every selected record still gets exactly one
create-issue call). Screenshot-reassembly and gist-upload failures are
swallowed (the record proceeds without screenshot, or with a placeholder
markdown) and do not trigger the failure write-back. -/
theorem issue_failure_write_back (store : ScreenshotDB) (oracle : Oracle)
    (now : Nat) (db : FeedbackDB) (id : String) (r : FeedbackRecord)
    (msg : String) (hnd : nodupIds db) (hmem : (id, r) ∈ pendingQuery db)
    (ho : oracle.issueOutcome id = IssueOutcome.failure msg) :
    ((runSync store oracle now db).2).countP (isFailUpdateFor id msg) = 1 ∧
    ((runSync store oracle now db).2).countP (isCreateFor id) = 1 ∧
    (∃ r', findRecord (runSync store oracle now db).1 id = some r' ∧
      r'.githubIssueUrl = none ∧ r'.retryCount = r.retryCount + 1 ∧
      r'.lastAttempt = some now) ∧
    ∀ j s, (j, s) ∈ pendingQuery db →
      ((runSync store oracle now db).2).countP (isCreateFor j) = 1 := by
  have hurl : r.githubIssueUrl = none :=
    (of_decide_eq_true (mem_pendingQuery hmem).2).1
  refine ⟨runSync_countFail hnd hmem ho, runSync_countCreate hnd hmem, ?_,
    fun j s hjs => runSync_countCreate hnd hjs⟩
  rcases runSync_failure_find hnd hmem ho with hcase | hcase
  · exact ⟨applyErrorUpdate msg now r, hcase, hurl, rfl, rfl⟩
  · exact ⟨applyRetryReset now (applyErrorUpdate msg now r), hcase, hurl,
      rfl, rfl⟩

/-- Claim C3 amended witness: with two pending records and a throwing issue
tracker, the first record gets its failure write-back and the second is
still processed. -/
theorem issue_failure_write_back_witness :
    ((runSync exStore failOracle 8 pendingDb2).2).countP
      (isFailUpdateFor "f1" "API rate limit exceeded") = 1 ∧
    ((runSync exStore failOracle 8 pendingDb2).2).countP
      (isCreateFor "f2") = 1 :=
  have h := issue_failure_write_back exStore failOracle 8 pendingDb2 "f1"
    pendingRec "API rate limit exceeded" (by decide) (by decide) rfl
  ⟨h.1, h.2.2.2 "f2" pendingRec2 (by decide)⟩

/-- Claim C6: the retry query selects only failed records (`githubIssueUrl`
null, `githubIssueError` non-null) with `retryCount` strictly below the
ceiling 3; a failed record with `retryCount = 2` satisfies the retry
filter, and a record with `retryCount ≥ 3` is never selected nor re-armed
in any run (it is left entirely untouched). -/
theorem retry_query_bounded (db : FeedbackDB) :
    (∀ id r, (id, r) ∈ retryQuery db → r.githubIssueUrl = none ∧
      r.githubIssueError ≠ none ∧ r.retryCount < 3) ∧
    (∀ r : FeedbackRecord, r.githubIssueUrl = none →
      r.githubIssueError ≠ none → r.retryCount = 2 → retryPred r = true) ∧
    (∀ store oracle now id r, nodupIds db → findRecord db id = some r →
      r.githubIssueError ≠ none → 3 ≤ r.retryCount →
      findRecord (runSync store oracle now db).1 id = some r) := by
  refine ⟨fun id r h => ?_, fun r h1 h2 h3 => ?_,
    fun store oracle now id r hnd hf herr hcnt => ?_⟩
  · have hp := of_decide_eq_true (mem_retryQuery h).2
    exact ⟨hp.2.1, hp.1, hp.2.2⟩
  · rw [retryPred]
    exact decide_eq_true ⟨h2, h1, by rw [h3]; exact Nat.lt_succ_self 2⟩
  · have hpend : pendingPred r = false := by
      rw [pendingPred, decide_eq_false_iff_not]
      rintro ⟨-, h2⟩
      exact herr h2
    have hretry : retryPred r = false := by
      rw [retryPred, decide_eq_false_iff_not]
      rintro ⟨-, -, h3⟩
      omega
    exact runSync_find_untouched hnd hf hpend hretry

/-- Claim C6 witness: a failed record at `retryCount = 2` passes the retry
filter, and an exhausted record at `retryCount = 3` survives a whole run
unchanged. -/
theorem retry_query_bounded_witness :
    retryPred eligibleRec = true ∧
    findRecord (runSync exStore okOracle 9 exhaustedDb).1 "x1"
      = some exhaustedRec :=
  ⟨(retry_query_bounded exhaustedDb).2.1 eligibleRec rfl (by decide) rfl,
    (retry_query_bounded exhaustedDb).2.2 exStore okOracle 9 "x1"
      exhaustedRec (by decide) (by decide) (by decide) (by decide)⟩

/-- Claim C7 counterexample: the retry reset makes a failed record pending again
(`githubIssueError` back to null, `lastRetry` stamped) but does NOT
increment `retryCount` — after resetting a failed record with
`retryCount = 1`, the count is still 1, not 2 as the claim requires (the
increment happens in the failure write-back instead). -/
theorem retry_reset_no_increment :
    failedRec.retryCount = 1 ∧
    findRecord (runSync exStore okOracle 5 failedDb).1 "g1"
      = some (failedRecAfterReset 5) ∧
    (failedRecAfterReset 5).githubIssueError = none ∧
    (failedRecAfterReset 5).retryCount = 1 :=
  ⟨rfl, by decide, rfl, rfl⟩

/-- Claim C7 amended: a failed record becomes pending again only through the
explicit retry reset — if after a run its `githubIssueError` is null, its
final state is exactly the retry reset of its previous state — and the
reset leaves `retryCount` unchanged (it is the failure write-back, not the
reset, that increments it). -/
theorem failed_to_pending_only_reset (store : ScreenshotDB) (oracle : Oracle)
    (now : Nat) (db : FeedbackDB) (id : String) (r r' : FeedbackRecord)
    (hnd : nodupIds db) (hf : findRecord db id = some r)
    (herr : r.githubIssueError ≠ none)
    (hf' : findRecord (runSync store oracle now db).1 id = some r')
    (hp : r'.githubIssueError = none) :
    r' = applyRetryReset now r ∧ r'.retryCount = r.retryCount := by
  have hpend : pendingPred r = false := by
    rw [pendingPred, decide_eq_false_iff_not]
    rintro ⟨-, h2⟩
    exact herr h2
  have h1 : findRecord (processBatch store oracle now db (pendingQuery db)).1 id
      = some r :=
    (processBatch_find_notmem (not_mem_pendingQuery_ids hnd hf hpend)).trans hf
  have hnd1 : nodupIds (processBatch store oracle now db (pendingQuery db)).1 := by
    unfold nodupIds
    rw [processBatch_ids]
    exact hnd
  by_cases hsel : id ∈ (retryQuery
      (processBatch store oracle now db (pendingQuery db)).1).map Prod.fst
  · rcases List.mem_map.mp hsel with ⟨q, hq, hq1⟩
    have hqeq : q = (id, q.2) := by
      rw [← hq1]
    rw [hqeq] at hq
    have hfin : findRecord (runSync store oracle now db).1 id
        = some (applyRetryReset now r) := by
      show findRecord (retryBatch now
        (processBatch store oracle now db (pendingQuery db)).1
        (retryQuery (processBatch store oracle now db (pendingQuery db)).1)).1
          id = _
      rw [retryBatch_find_mem (retryQuery_ids_nodup hnd1) hq, h1,
        Option.map_some']
    have hr' : r' = applyRetryReset now r :=
      Option.some.inj (hf'.symm.trans hfin)
    exact ⟨hr', (congrArg FeedbackRecord.retryCount hr').trans rfl⟩
  · have hfin : findRecord (runSync store oracle now db).1 id = some r := by
      show findRecord (retryBatch now
        (processBatch store oracle now db (pendingQuery db)).1
        (retryQuery (processBatch store oracle now db (pendingQuery db)).1)).1
          id = _
      exact (retryBatch_find_notmem hsel).trans h1
    have hr' : r' = r := Option.some.inj (hf'.symm.trans hfin)
    exact absurd (hr' ▸ hp) herr

/-- Claim C7 amended witness: the failed fixture record, after a run, is exactly
its retry reset, with `retryCount` unchanged. -/
theorem failed_to_pending_only_reset_witness :
    failedRecAfterReset 11 = applyRetryReset 11 failedRec ∧
    (failedRecAfterReset 11).retryCount = failedRec.retryCount :=
  failed_to_pending_only_reset exStore gistFailOracle 11 failedDb "g1"
    failedRec (failedRecAfterReset 11)
    (by decide) (by decide) (by decide) (by decide) (by decide)

end SyncSpec
